import Mathlib

/-!
Shallow embedding of the swaystart replay/reconciliation engine
(src/matcher.rs, src/node.rs, src/visit.rs, src/main.rs) together with
theorems checking the natural-language specification against it.

Modelling conventions:
- Rust `Option<String>` becomes `Option String`; `i64` container ids become `Int`.
- `f64` slot sizes become `Rat`; the Rust cast `as i32` (truncation toward zero)
  becomes `ratTrunc`.
- Stateful code is modelled by explicit state passing; commands sent to the
  window manager are collected into a `List Cmd`; fallible code returns
  `Except String`.
- The event stream is a `List` of events; the stream ending corresponds to the
  list being exhausted.
-/

set_option maxHeartbeats 1000000

namespace Swaystart

/-! ## Window identity (projection of `swayipc::Node` used by the matcher and the swapper) -/

/-- Fields of `swayipc::WindowProperties` read by the program.
Rust field names `class` and `instance` are Lean keywords, hence `cls` / `inst`. -/
structure WinProps where
  cls : Option String
  inst : Option String
  window_type : Option String
deriving DecidableEq

/-- The identity-relevant projection of `swayipc::Node` for an individual window:
exactly the fields read by `Matcher::matches` and by `Swapper::swap`. -/
structure WinInfo where
  id : Int
  name : Option String
  app_id : Option String
  floating : Option Unit
  window_properties : Option WinProps
deriving DecidableEq

/-- The candidate's window class, as read by `Matcher::matches`
(`node.window_properties.as_ref().and_then(|p| p.class.clone())`). -/
def cClass (c : WinInfo) : Option String :=
  c.window_properties.bind WinProps.cls

/-- The candidate's window instance, as read by `Matcher::matches`. -/
def cInstance (c : WinInfo) : Option String :=
  c.window_properties.bind WinProps.inst

/-! ## Matcher (src/node.rs `Matcher`, src/matcher.rs `Matcher::matches`) -/

/-- `Matcher` from src/node.rs: four optional string fields.
Rust field names `class` and `instance` are Lean keywords, hence `cls` / `inst`. -/
structure Matcher where
  app_id : Option String
  cls : Option String
  inst : Option String
  name : Option String
deriving DecidableEq

/-- `Matcher::matches` from src/matcher.rs, translated macro expansion and all.
The `match_on!` macro returns `match_inner(matcher, target)` as soon as both
sides of a field are `Some`, and returns `false` when the matcher side is
`Some` and the candidate side is `None`; otherwise it falls through to the
next field.  Field order: `app_id`, `name`, `class`, `instance`. -/
def Matcher.matches (m : Matcher) (c : WinInfo) : Bool :=
  match m.app_id, c.app_id with
  | some mv, some tv => mv == tv
  | some _, none => false
  | none, _ =>
    match m.name, c.name with
    | some mv, some tv => mv == tv
    | some _, none => false
    | none, _ =>
      match m.cls, cClass c with
      | some mv, some tv => mv == tv
      | some _, none => false
      | none, _ =>
        match m.inst, cInstance c with
        | some mv, some tv => mv == tv
        | some _, none => false
        | none, _ => true

/-- Modelled from the spec's words for claim C1 (conjunctive reading):
one field passes when the matcher leaves it absent (wildcard), or when both
sides carry it with equal value; a field the matcher specifies but the
candidate lacks fails. -/
def fieldOk : Option String → Option String → Bool
  | none, _ => true
  | some mv, some tv => mv == tv
  | some _, none => false

/-- Modelled from the spec's words for claim C1: every field the matcher
specifies must pass (conjunction over the four fields). -/
def specConjMatches (m : Matcher) (c : WinInfo) : Bool :=
  fieldOk m.app_id c.app_id && fieldOk m.name c.name &&
    fieldOk m.cls (cClass c) && fieldOk m.inst (cInstance c)

/-- The four (matcher-side, candidate-side) field pairs in the order the code
examines them: application id, title/name, window class, window instance. -/
def specFieldPairs (m : Matcher) (c : WinInfo) : List (Option String × Option String) :=
  [(m.app_id, c.app_id), (m.name, c.name), (m.cls, cClass c), (m.inst, cInstance c)]

/-- Modelled from the amended claim C1's words: the first field the matcher
specifies (in examination order) decides the result alone — equality if the
candidate carries the field, failure if it lacks it; a matcher specifying no
field matches everything. -/
def firstSpecifiedDecides (m : Matcher) (c : WinInfo) : Bool :=
  match (specFieldPairs m c).find? (fun p => p.1.isSome) with
  | none => true
  | some (some mv, some tv) => mv == tv
  | some (some _, none) => false
  | some (none, _) => true

def demoMatcherC1 : Matcher :=
  { app_id := some "a", cls := none, inst := none, name := some "x" }

def demoWinC1 : WinInfo :=
  { id := 7, name := some "y", app_id := some "a", floating := none,
    window_properties := none }

/-- Claim C1 counterexample: the matcher specifies both `app_id` and `name`;
the candidate carries the same `app_id` but a different `name`.  The claim
says the match must fail (a specified field differs), yet `Matcher::matches`
returns `true`, because the macro chain returns at the first specified and
present field (`app_id`) without ever examining `name`. -/
theorem matcher_first_specified_field_counter :
    Matcher.matches demoMatcherC1 demoWinC1 = true ∧
      specConjMatches demoMatcherC1 demoWinC1 = false := by
  constructor <;> rfl

/-- Claim C1 (amended): `Matcher::matches` examines the fields in the fixed
order application-id, title/name, window-class, window-instance, and the first
field the matcher specifies decides the result alone: exact equality when the
candidate carries that field, failure when the candidate lacks it entirely;
later specified fields are not examined.  A `Matcher` with all four fields
absent matches every candidate. -/
theorem matcher_matches_first_specified_decides (m : Matcher) (c : WinInfo) :
    Matcher.matches m c = firstSpecifiedDecides m c := by
  rcases m with ⟨ma, mc, mi, mn⟩
  cases ma <;> cases mn <;> cases mc <;> cases mi <;>
    cases hca : c.app_id <;> cases hcn : c.name <;>
    cases hcc : cClass c <;> cases hci : cInstance c <;>
    simp [Matcher.matches, firstSpecifiedDecides, specFieldPairs, List.find?,
      hca, hcn, hcc, hci]

/-! ## Matcher registry (src/matcher.rs `Matchers`)

The Rust struct holds `data: Vec<(i64, Vec<Matcher>)>`; we model the state as
that list directly and return the new state alongside the result. -/

/-- Whether a registry entry `(id, matchers)` accepts candidate `c`:
`v.iter().any(|m| m.matches(node))`. -/
def entryMatches (e : Int × List Matcher) (c : WinInfo) : Bool :=
  e.2.any (fun m => m.matches c)

/-- `Matchers::consume`: scan the entries in insertion order, remove and
return the id of the first entry one of whose matchers accepts the candidate;
on no match return `none` and leave the data untouched.  (The Rust code finds
the first index with `position` and calls `Vec::remove` on it; this recursion
is that same first-match removal scan.) -/
def Matchers.consume : List (Int × List Matcher) → WinInfo →
    Option Int × List (Int × List Matcher)
  | [], _ => (none, [])
  | e :: rest, c =>
    if entryMatches e c then (some e.1, rest)
    else
      let r := Matchers.consume rest c
      (r.1, e :: r.2)

/-- `Matchers::add`: `self.data.push((id, ms))` appends at the end. -/
def Matchers.add (d : List (Int × List Matcher)) (id : Int) (ms : List Matcher) :
    List (Int × List Matcher) :=
  d ++ [(id, ms)]

/-- `Matchers::remove`: drop the entry with the given id, if present; report
whether one was removed. -/
def Matchers.removeId : List (Int × List Matcher) → Int →
    Bool × List (Int × List Matcher)
  | [], _ => (false, [])
  | e :: rest, id =>
    if e.1 == id then (true, rest)
    else
      let r := Matchers.removeId rest id
      (r.1, e :: r.2)

/-- Claim C5: `consume` scans the entries in insertion order and returns and
removes the first entry one of whose matchers accepts the candidate; in
particular after `add(A, msA); add(B, msB)` where both entries accept `x`,
`consume x` returns `A` leaving only `B`, and a subsequent `consume x`
returns `B` leaving the registry empty. -/
theorem registry_consume_first_match :
    (∀ (l1 l2 : List (Int × List Matcher)) (id : Int) (ms : List Matcher)
        (c : WinInfo),
      (∀ e ∈ l1, entryMatches e c = false) →
      entryMatches (id, ms) c = true →
      Matchers.consume (l1 ++ (id, ms) :: l2) c = (some id, l1 ++ l2)) ∧
    (∀ (A B : Int) (msA msB : List Matcher) (x : WinInfo),
      entryMatches (A, msA) x = true →
      entryMatches (B, msB) x = true →
      Matchers.consume (Matchers.add (Matchers.add [] A msA) B msB) x
          = (some A, [(B, msB)]) ∧
        Matchers.consume [(B, msB)] x = (some B, [])) := by
  have general :
      ∀ (l1 l2 : List (Int × List Matcher)) (id : Int) (ms : List Matcher)
        (c : WinInfo),
        (∀ e ∈ l1, entryMatches e c = false) →
        entryMatches (id, ms) c = true →
        Matchers.consume (l1 ++ (id, ms) :: l2) c = (some id, l1 ++ l2) := by
    intro l1 l2 id ms c hnone hhit
    induction l1 with
    | nil => simp [Matchers.consume, hhit]
    | cons e tl ih =>
      have he : entryMatches e c = false := hnone e (by simp)
      have htl : ∀ x ∈ tl, entryMatches x c = false := by
        intro x hx; exact hnone x (by simp [hx])
      simp [Matchers.consume, he, ih htl]
  refine ⟨general, ?_⟩
  intro A B msA msB x hA hB
  constructor
  · simpa using general [] [(B, msB)] A msA x (by simp) hA
  · simpa using general [] [] B msB x (by simp) hB

def demoMatcherT : Matcher := { app_id := some "t", cls := none, inst := none, name := none }

def demoWinT : WinInfo :=
  { id := 0, name := none, app_id := some "t", floating := none, window_properties := none }

def demoWinU : WinInfo :=
  { id := 0, name := none, app_id := some "u", floating := none, window_properties := none }

/-- Witness for claim C5 at a concrete registry: both entries accept the
candidate whose `app_id` is `"t"`; the first consume returns id 1, the second
returns id 2. -/
theorem registry_consume_first_match_witness :
    Matchers.consume [(1, [demoMatcherT]), (2, [demoMatcherT])] demoWinT
        = (some 1, [(2, [demoMatcherT])]) ∧
      Matchers.consume [(2, [demoMatcherT])] demoWinT = (some 2, []) := by
  have h := registry_consume_first_match.2 1 2 [demoMatcherT] [demoMatcherT]
    demoWinT (by decide) (by decide)
  simpa [Matchers.add] using h

/-- Claim C6: when no entry's matchers accept the candidate, `consume`
returns `none` and leaves the registry completely unchanged — same entries,
same order. -/
theorem registry_consume_no_match_unchanged
    (d : List (Int × List Matcher)) (c : WinInfo)
    (h : ∀ e ∈ d, entryMatches e c = false) :
    Matchers.consume d c = (none, d) := by
  induction d with
  | nil => simp [Matchers.consume]
  | cons e tl ih =>
    have he : entryMatches e c = false := h e (by simp)
    have htl : ∀ x ∈ tl, entryMatches x c = false := by
      intro x hx; exact h x (by simp [hx])
    simp [Matchers.consume, he, ih htl]

/-- Witness for claim C6: a one-entry registry whose matcher wants `app_id`
`"t"` is left untouched by a candidate with `app_id` `"u"`. -/
theorem registry_consume_no_match_unchanged_witness :
    Matchers.consume [(1, [demoMatcherT])] demoWinU = (none, [(1, [demoMatcherT])]) :=
  registry_consume_no_match_unchanged [(1, [demoMatcherT])] demoWinU (by decide)

/-! ## Generic tree visitor (src/visit.rs `visit_node`)

The traversal reads only `node_type`, `name` and `nodes` of each node, so the
embedded node type carries exactly those.  A traversal is modelled by the list
of callback invocations it performs, in order. -/

/-- `swayipc::NodeType` as matched by `visit_node` (`_` arms collapse to
`floatingCon`, which triggers no callback but is still descended into). -/
inductive NType
  | root
  | output
  | workspace
  | con
  | floatingCon
deriving DecidableEq

/-- The projection of a layout-tree node read by `visit_node`:
optional name, node type, ordered children. -/
inductive NodeL
  | mk : Option String → NType → List NodeL → NodeL

def NodeL.name : NodeL → Option String
  | .mk nm _ _ => nm

def NodeL.ntype : NodeL → NType
  | .mk _ t _ => t

def NodeL.nodes : NodeL → List NodeL
  | .mk _ _ ns => ns

/-- One callback invocation of the generic visitor, tagged with the name of
the node it was invoked on. -/
inductive VEvent
  | vOut : Option String → VEvent
  | vWs : Option String → VEvent
  | vEnter : Option String → VEvent
  | vExit : Option String → VEvent
  | vView : Option String → VEvent
deriving DecidableEq

/-- The loop body of `visit_node` over a child list: for each child, fire the
callback its node type demands (`on_output`, `on_workspace`, `on_view` for a
childless con, `on_container_enter`/`on_container_exit` bracketing a con with
children), skip entirely a `Root` child named `"__i3"`, and recurse into the
child's own children. -/
def visitChildren : List NodeL → List VEvent
  | [] => []
  | NodeL.mk nm NType.output ns :: rest =>
    (VEvent.vOut nm :: visitChildren ns) ++ visitChildren rest
  | NodeL.mk nm NType.workspace ns :: rest =>
    (VEvent.vWs nm :: visitChildren ns) ++ visitChildren rest
  | NodeL.mk nm NType.con [] :: rest =>
    VEvent.vView nm :: visitChildren rest
  | NodeL.mk nm NType.con (c :: cs) :: rest =>
    (VEvent.vEnter nm :: (visitChildren (c :: cs) ++ [VEvent.vExit nm]))
      ++ visitChildren rest
  | NodeL.mk nm NType.root ns :: rest =>
    (if nm = some "__i3" then [] else visitChildren ns) ++ visitChildren rest
  | NodeL.mk _nm NType.floatingCon ns :: rest =>
    visitChildren ns ++ visitChildren rest

/-- `visit_node(node)`: walk the node's children in list order. -/
def visitNode (n : NodeL) : List VEvent :=
  visitChildren n.nodes

theorem visitChildren_append (a b : List NodeL) :
    visitChildren (a ++ b) = visitChildren a ++ visitChildren b := by
  induction a with
  | nil => simp [visitChildren]
  | cons h tl ih =>
    rcases h with ⟨nm, t, ns⟩
    cases t <;> cases ns <;> simp [visitChildren, ih]

/-- Claim C7: the generic traversal skips a `Root` child named with the
reserved scratch identifier `"__i3"` together with its entire subtree: the
callback trace of a tree containing such a child is identical to the trace of
the same tree with that child (and hence all its descendants) deleted. -/
theorem traversal_skips_scratch_subtree (nm : Option String) (t : NType)
    (l1 l2 sns : List NodeL) :
    visitNode (NodeL.mk nm t (l1 ++ NodeL.mk (some "__i3") NType.root sns :: l2))
      = visitNode (NodeL.mk nm t (l1 ++ l2)) := by
  simp [visitNode, NodeL.nodes, visitChildren_append, visitChildren]

/-! ## Replay builder data model and traversal (src/main.rs)

`Output`/`Workspace`/`Layout`/`Slot` mirror the serde document structs; the
`LayoutVisitor` trait's provided `visit_*` methods are modelled as a trace of
callback invocations. -/

/-- `LayoutStyle` from src/main.rs (note: no `Stacked` variant exists). -/
inductive LayoutStyle
  | tabbed
  | splitv
  | splith
deriving DecidableEq

mutual

/-- `Layout { style, slots }`. -/
inductive Layout
  | mk : LayoutStyle → List Slot → Layout

/-- `Slot { size, content }`; the `f64` size is embedded as `Rat`. -/
inductive Slot
  | mk : Rat → SlotContent → Slot

/-- `SlotContent`: a nested container, an app name, or an app with an id. -/
inductive SlotContent
  | container : Layout → SlotContent
  | app : String → SlotContent
  | appWithId : String → String → SlotContent

end

def Layout.style : Layout → LayoutStyle
  | .mk st _ => st

def Layout.slots : Layout → List Slot
  | .mk _ sl => sl

def Slot.size : Slot → Rat
  | .mk sz _ => sz

def Slot.content : Slot → SlotContent
  | .mk _ c => c

/-- One callback invocation of the builder-side `LayoutVisitor` trait. -/
inductive BEvent
  | outEv : String → BEvent
  | wsEv : String → BEvent
  | layoutEnter : LayoutStyle → BEvent
  | layoutExit : LayoutStyle → BEvent
  | slotEv : BEvent
  | appEv : String → String → BEvent
deriving DecidableEq

mutual

/-- `LayoutVisitor::visit_layout`: on a non-empty slot list, visit the FIRST
slot, then call `on_layout_enter`, then visit the remaining slots, then call
`on_layout_exit`; an empty slot list produces nothing. -/
def visitLayoutT : Layout → List BEvent
  | Layout.mk _ [] => []
  | Layout.mk st (first :: rest) =>
    visitSlotT first ++
      BEvent.layoutEnter st :: (visitSlotsT rest ++ [BEvent.layoutExit st])

def visitSlotsT : List Slot → List BEvent
  | [] => []
  | s :: rest => visitSlotT s ++ visitSlotsT rest

/-- `LayoutVisitor::visit_slot`: call `on_slot`, then recurse into a container
slot or call `on_app` for an app slot (`visit_app(a, a)` for a plain app,
`visit_app(app, id)` for an app with id). -/
def visitSlotT : Slot → List BEvent
  | Slot.mk _ (SlotContent.container c) => BEvent.slotEv :: visitLayoutT c
  | Slot.mk _ (SlotContent.app a) => [BEvent.slotEv, BEvent.appEv a a]
  | Slot.mk _ (SlotContent.appWithId a i) => [BEvent.slotEv, BEvent.appEv a i]

end

def demoSlotA : Slot := Slot.mk 1 (SlotContent.app "a")

def demoSlotB : Slot := Slot.mk 1 (SlotContent.app "b")

def demoLayoutC8 : Layout := Layout.mk LayoutStyle.splith [demoSlotA, demoSlotB]

/-- Claim C8 counterexample: in the replay builder's traversal of a two-slot
layout, the first slot is visited (its `on_slot` and `on_app` callbacks fire)
BEFORE `on_layout_enter` is invoked, so the container-enter callback is not
invoked before every child.  The second conjunct states that the trace is not
the enter-first trace the claim demands. -/
theorem builder_enter_after_first_child_counter :
    visitLayoutT demoLayoutC8 =
        [BEvent.slotEv, BEvent.appEv "a" "a",
          BEvent.layoutEnter LayoutStyle.splith,
          BEvent.slotEv, BEvent.appEv "b" "b",
          BEvent.layoutExit LayoutStyle.splith] ∧
      visitLayoutT demoLayoutC8 ≠
        [BEvent.layoutEnter LayoutStyle.splith,
          BEvent.slotEv, BEvent.appEv "a" "a",
          BEvent.slotEv, BEvent.appEv "b" "b",
          BEvent.layoutExit LayoutStyle.splith] := by
  have h : visitLayoutT demoLayoutC8 =
      [BEvent.slotEv, BEvent.appEv "a" "a",
        BEvent.layoutEnter LayoutStyle.splith,
        BEvent.slotEv, BEvent.appEv "b" "b",
        BEvent.layoutExit LayoutStyle.splith] := by
    simp [demoLayoutC8, demoSlotA, demoSlotB, visitLayoutT, visitSlotsT, visitSlotT]
  exact ⟨h, by rw [h]; decide⟩

/-- Claim C8 (amended): the generic visitor invokes `on_container_enter`
before any of a container's children is visited and `on_container_exit` after
all of them; the replay builder's traversal instead visits the FIRST slot
before invoking `on_layout_enter`, then visits the remaining slots, and
invokes `on_layout_exit` only after all slots have been visited. -/
theorem container_callbacks_bracket_children :
    (∀ (nm : Option String) (c1 : NodeL) (cs rest : List NodeL),
      visitChildren (NodeL.mk nm NType.con (c1 :: cs) :: rest)
        = (VEvent.vEnter nm :: (visitChildren (c1 :: cs) ++ [VEvent.vExit nm]))
            ++ visitChildren rest) ∧
    (∀ (st : LayoutStyle) (first : Slot) (rest : List Slot),
      visitLayoutT (Layout.mk st (first :: rest))
        = visitSlotT first ++
            BEvent.layoutEnter st :: (visitSlotsT rest ++ [BEvent.layoutExit st])) := by
  constructor
  · intro nm c1 cs rest
    simp [visitChildren]
  · intro st first rest
    simp [visitLayoutT]

/-! ## Commands issued to the window manager

Each constructor stands for one `run(...)` invocation of the corresponding
sway command string. -/

inductive Dim
  | width
  | height
deriving DecidableEq

/-- One command issued through `Connection::run_command`. -/
inductive Cmd
  | focusOutput : String → Cmd
  | workspaceLayout : String → LayoutStyle → Cmd
  | splitH : Cmd
  | layoutSet : LayoutStyle → Cmd
  | focusPrevSibling : Cmd
  | conFocusResize : Int → Dim → Int → Cmd
  | focusParent : Cmd
  | swapWith : Int → Int → Cmd
  | kill : Int → Cmd
  | floatingEnable : Int → Cmd
deriving DecidableEq

/-- The Rust cast `f64 as i32` for the in-range values that occur here:
truncation toward zero. -/
def ratTrunc (q : Rat) : Int :=
  if 0 ≤ q then ⌊q⌋ else ⌈q⌉

/-- The dimension resized along: `height` for a vertical split, `width`
otherwise. -/
def dimOf (st : LayoutStyle) : Dim :=
  match st with
  | LayoutStyle.splitv => Dim.height
  | _ => Dim.width

/-- `denom`: the fold summing all slot sizes. -/
def slotsDenom (slots : List Slot) : Rat :=
  slots.foldl (fun acc el => acc + el.size) 0

/-- The measurement loop of `on_layout_exit`: iterate over the slots (the
caller passes them already reversed), each iteration reading the currently
focused node's id and extent from the live tree — modelled as consuming the
next element of `meas` — and pushing `(node.id, size_px, s.size)`.  Running
out of focused nodes is the `"no focused window"` error. -/
def measureSlots : List Slot → List (Int × Int) → Except String (List (Int × Int × Rat))
  | [], _ => Except.ok []
  | _ :: _, [] => Except.error "no focused window"
  | s :: srest, m :: mrest =>
    (measureSlots srest mrest).map (fun ns => (m.1, m.2, s.size) :: ns)

/-- `tot_size_px`: the fold summing the observed extents of the measured
nodes. -/
def nodesTot (nodes : List (Int × Int × Rat)) : Rat :=
  nodes.foldl (fun acc el => acc + (el.2.1 : Rat)) 0

/-- `LayoutBuilder::on_layout_exit` from src/main.rs, as the list of commands
it issues.  A `Tabbed` layout immediately issues `focus parent` and returns.
Otherwise the code walks the slots in reverse, reading the focused node's
extent and issuing `focus prev sibling` once per slot; it then walks the
collected nodes in reverse again (hence in forward slot order) issuing one
`[con_id=..] focus; resize set <dim> <px> px` command per child with
`px = ((s.size / denom) * tot_size_px) as i32`, and finally `focus parent`.
`meas` supplies the successive `get_tree()`/`find_focused` observations
(focused node id, extent in px along the split dimension). -/
def onLayoutExit (l : Layout) (meas : List (Int × Int)) : Except String (List Cmd) :=
  match l.style with
  | LayoutStyle.tabbed => Except.ok [Cmd.focusParent]
  | st =>
    let denom := slotsDenom l.slots
    (measureSlots l.slots.reverse meas).map (fun nodes =>
      let tot := nodesTot nodes
      List.replicate l.slots.length Cmd.focusPrevSibling
        ++ nodes.reverse.map
            (fun n => Cmd.conFocusResize n.1 (dimOf st) (ratTrunc ((n.2.2 / denom) * tot)))
        ++ [Cmd.focusParent])

/-- Claim C9: on container exit for a `Tabbed` container, the orchestrator
issues zero resize commands and exactly one focus-parent command, then
returns.  (This revision's `LayoutStyle` has no `Stacked` variant at all, so
the claim's parenthetical about `Stacked` is vacuous.) -/
theorem tabbed_exit_only_focus_parent (slots : List Slot) (meas : List (Int × Int)) :
    onLayoutExit (Layout.mk LayoutStyle.tabbed slots) meas = Except.ok [Cmd.focusParent] :=
  rfl

def demoLayoutC4 : Layout :=
  Layout.mk LayoutStyle.splith
    [Slot.mk (1 / 4 : Rat) (SlotContent.app "a"), Slot.mk (3 / 4 : Rat) (SlotContent.app "b")]

def demoMeasC4 : List (Int × Int) := [(20, 500), (10, 500)]

/-- Claim C4 counterexample, at the spec's own example (sizes 0.25 / 0.75,
observed extents summing to 1000 px): the code first issues the two
`focus prev sibling` commands (during the measurement pass, in reverse slot
order: con 20 then con 10), and only afterwards the two resize commands — in
FORWARD slot order (250 px for con 10, then 750 px for con 20), each resize
addressed by `con_id` rather than being focus-relative — then `focus parent`.
The claim instead demands the resizes in reverse child order with each resize
followed by a focus-previous-sibling command (second conjunct). -/
theorem layout_exit_command_order_counter :
    onLayoutExit demoLayoutC4 demoMeasC4 =
        Except.ok
          [Cmd.focusPrevSibling, Cmd.focusPrevSibling,
            Cmd.conFocusResize 10 Dim.width 250,
            Cmd.conFocusResize 20 Dim.width 750,
            Cmd.focusParent] ∧
      onLayoutExit demoLayoutC4 demoMeasC4 ≠
        Except.ok
          [Cmd.conFocusResize 20 Dim.width 750, Cmd.focusPrevSibling,
            Cmd.conFocusResize 10 Dim.width 250, Cmd.focusPrevSibling,
            Cmd.focusParent] := by
  have h : onLayoutExit demoLayoutC4 demoMeasC4 =
      Except.ok
        [Cmd.focusPrevSibling, Cmd.focusPrevSibling,
          Cmd.conFocusResize 10 Dim.width 250,
          Cmd.conFocusResize 20 Dim.width 750,
          Cmd.focusParent] := by
    simp [onLayoutExit, demoLayoutC4, demoMeasC4, Layout.style, Layout.slots,
      measureSlots, slotsDenom, nodesTot, Slot.size, ratTrunc, dimOf, Except.map]
    norm_num
  refine ⟨h, ?_⟩
  rw [h]
  intro hc
  simp at hc

/-- The sum of the observed extents in a measurement list. -/
def measExtentSum (meas : List (Int × Int)) : Rat :=
  meas.foldl (fun acc el => acc + (el.2 : Rat)) 0

theorem measureSlots_ok (slots : List Slot) (meas : List (Int × Int))
    (h : slots.length ≤ meas.length) :
    measureSlots slots meas =
      Except.ok (List.zipWith (fun s m => (m.1, m.2, s.size)) slots meas) := by
  induction slots generalizing meas with
  | nil => simp [measureSlots]
  | cons s tl ih =>
    cases meas with
    | nil => simp at h
    | cons m ms =>
      have hlen : tl.length ≤ ms.length := by simpa using h
      simp [measureSlots, ih ms hlen, Except.map]

theorem zipWith_reverse {α β γ : Type} (f : α → β → γ) (l1 : List α) (l2 : List β)
    (h : l1.length = l2.length) :
    (List.zipWith f l1 l2).reverse = List.zipWith f l1.reverse l2.reverse := by
  induction l1 generalizing l2 with
  | nil => simp
  | cons a tl ih =>
    cases l2 with
    | nil => simp at h
    | cons b ms =>
      have hlen : tl.length = ms.length := by simpa using h
      have happ :
          List.zipWith f (tl.reverse ++ [a]) (ms.reverse ++ [b])
            = List.zipWith f tl.reverse ms.reverse ++ List.zipWith f [a] [b] :=
        List.zipWith_append f tl.reverse [a] ms.reverse [b] (by simp [hlen])
      simp [List.zipWith, ih ms hlen, happ]

theorem foldl_zip_extents (sl : List Slot) (ms : List (Int × Int)) (init : Rat)
    (h : sl.length = ms.length) :
    (List.zipWith (fun s m => (m.1, m.2, s.size)) sl ms).foldl
        (fun acc el => acc + (el.2.1 : Rat)) init
      = ms.foldl (fun acc el => acc + (el.2 : Rat)) init := by
  induction sl generalizing ms init with
  | nil =>
    cases ms with
    | nil => simp
    | cons m mrest => simp at h
  | cons s tl ih =>
    cases ms with
    | nil => simp at h
    | cons m mrest =>
      have hlen : tl.length = mrest.length := by simpa using h
      simp [List.zipWith, ih mrest _ hlen]

/-- Claim C4 (amended): on container exit for a linear split container
(`Splith` or `Splitv`) with n children, the orchestrator first issues n
focus-previous-sibling commands (one per child, during the reverse-order
measurement pass), then n combined focus-and-resize commands in FORWARD child
order — the command for slot i addressed by the container id observed while
measuring that slot (measurements are consumed in reverse slot order), with
extent `trunc((size_i / sum of sizes) * sum of observed extents)` along the
split dimension — and finally exactly one focus-parent command. -/
theorem layout_exit_commands_forward_order (st : LayoutStyle) (slots : List Slot)
    (meas : List (Int × Int)) (hst : st ≠ LayoutStyle.tabbed)
    (hlen : meas.length = slots.length) :
    onLayoutExit (Layout.mk st slots) meas =
      Except.ok
        (List.replicate slots.length Cmd.focusPrevSibling
          ++ List.zipWith
              (fun s m => Cmd.conFocusResize m.1 (dimOf st)
                (ratTrunc ((s.size / slotsDenom slots) * measExtentSum meas)))
              slots meas.reverse
          ++ [Cmd.focusParent]) := by
  have unf : onLayoutExit (Layout.mk st slots) meas =
      (measureSlots slots.reverse meas).map (fun nodes =>
        List.replicate slots.length Cmd.focusPrevSibling
          ++ nodes.reverse.map
              (fun n => Cmd.conFocusResize n.1 (dimOf st)
                (ratTrunc ((n.2.2 / slotsDenom slots) * nodesTot nodes)))
          ++ [Cmd.focusParent]) := by
    cases st with
    | tabbed => exact absurd rfl hst
    | splitv => rfl
    | splith => rfl
  rw [unf, measureSlots_ok slots.reverse meas (by simp [hlen])]
  simp only [Except.map]
  congr 1
  rw [zipWith_reverse _ slots.reverse meas (by simp [hlen])]
  rw [List.reverse_reverse]
  rw [List.map_zipWith]
  have htot : nodesTot (List.zipWith (fun s m => (m.1, m.2, s.size)) slots.reverse meas)
      = measExtentSum meas :=
    foldl_zip_extents slots.reverse meas 0 (by simp [hlen])
  simp only [htot]

/-- Witness for the amended claim C4: at the spec's own example the theorem
applies (split-horizontal layout, sizes 1/4 and 3/4, two measurements). -/
theorem layout_exit_commands_forward_order_witness :
    onLayoutExit demoLayoutC4 demoMeasC4 =
      Except.ok
        (List.replicate (Layout.slots demoLayoutC4).length Cmd.focusPrevSibling
          ++ List.zipWith
              (fun s m => Cmd.conFocusResize m.1 (dimOf LayoutStyle.splith)
                (ratTrunc ((s.size / slotsDenom (Layout.slots demoLayoutC4))
                  * measExtentSum demoMeasC4)))
              (Layout.slots demoLayoutC4) demoMeasC4.reverse
          ++ [Cmd.focusParent]) :=
  layout_exit_commands_forward_order LayoutStyle.splith (Layout.slots demoLayoutC4)
    demoMeasC4 (by decide) (by decide)

/-! ## Swapper (src/main.rs `Swapper::swap` and `LayoutBuilder::on_app`)

The `HashMap<String, Vec<i64>>` mapping is modelled as an association list
with unique keys; `get_mut` + in-place mutation becomes lookup + first-key
replacement. -/

/-- Lookup in the placeholder mapping (`HashMap::get`). -/
def mlookup (mp : List (String × List Int)) (k : String) : Option (List Int) :=
  (mp.find? (fun p => p.1 == k)).map Prod.snd

/-- Replace the value stored under the first occurrence of key `k`
(the effect of mutating through `HashMap::get_mut`). -/
def mset : List (String × List Int) → String → List Int → List (String × List Int)
  | [], _, _ => []
  | p :: rest, k, v => if p.1 == k then (k, v) :: rest else p :: mset rest k v

/-- `LayoutBuilder::on_app`'s registration step:
`self.mapping.entry(id.to_owned()).or_default().push(node.id)` — append the
new placeholder's container id at the END of the per-key list. -/
def registerPlaceholder (mp : List (String × List Int)) (k : String) (conId : Int) :
    List (String × List Int) :=
  match mlookup mp k with
  | some v => mset mp k (v ++ [conId])
  | none => mp ++ [(k, [conId])]

/-- The matcher key `Swapper::swap` derives from a `New` window event:
`None` when the window is floating; `None` when `window_properties` is
present with `window_type` different from `Some("normal")`; otherwise the
window class when `window_properties` is present, else the `app_id`. -/
def matcherKey (w : WinInfo) : Option String :=
  if w.floating.isSome then none
  else if w.window_properties.any (fun p => p.window_type != some "normal") then none
  else
    match w.window_properties with
    | some props => props.cls
    | none => w.app_id

/-- Result of processing one `New` window event: the commands issued, the
updated mapping, and whether a swap was performed. -/
structure SwapRes where
  cmds : List Cmd
  mapping : List (String × List Int)
  swapped : Bool
deriving DecidableEq

/-- The `WindowChange::New` arm of `Swapper::swap`: derive the matcher key;
on a key with a pending placeholder, `Vec::pop` the LAST container id from
the per-key list and issue the swap command followed by the kill command;
in every other case issue exactly one `floating enable` command addressed to
the new window. -/
def newWindowStep (mp : List (String × List Int)) (w : WinInfo) : SwapRes :=
  match matcherKey w with
  | some m =>
    match mlookup mp m with
    | some v =>
      match v.getLast? with
      | some conId =>
        { cmds := [Cmd.swapWith conId w.id, Cmd.kill conId],
          mapping := mset mp m v.dropLast, swapped := true }
      | none => { cmds := [Cmd.floatingEnable w.id], mapping := mp, swapped := false }
    | none => { cmds := [Cmd.floatingEnable w.id], mapping := mp, swapped := false }
  | none => { cmds := [Cmd.floatingEnable w.id], mapping := mp, swapped := false }

/-- `WindowChange` kinds distinguished by the swap loop (`New`, `Close`,
everything else ignored). -/
inductive WChange
  | newWin
  | closeWin
  | otherWin
deriving DecidableEq

/-- One window event from the subscription. -/
structure WEvent where
  change : WChange
  container : WinInfo
deriving DecidableEq

/-- `swaystart-` prefix stripping (`app_id.strip_prefix("swaystart-")`). -/
def afterMarker (s : String) : Option String :=
  if String.isPrefixOf "swaystart-" s then some (s.drop 10) else none

/-- `Vec::swap_remove(idx)`: move the last element into position `idx` and
drop the last slot. -/
def swapRemoveAt (v : List Int) (i : Nat) : List Int :=
  match v.getLast? with
  | none => v
  | some last => (v.set i last).dropLast

/-- The total number of outstanding placeholder ids
(`for v in self.mapping.values() { count += v.len(); }`). -/
def countOf (mp : List (String × List Int)) : Nat :=
  mp.foldl (fun acc p => acc + p.2.length) 0

/-- The event loop of `Swapper::swap`, processing the remaining events with
the current mapping and outstanding count, and collecting every command
issued.  A `Close` event whose subject carries the `swaystart-` label removes
that container id from its per-key list (`swap_remove`) and decrements the
count, terminating successfully when it reaches zero.  A `New` event runs
`newWindowStep`.  When the event list is exhausted the Rust loop falls out of
`while let` and returns `Ok(())` — modelled as `Except.ok`. -/
def swapGo : List (String × List Int) → Nat → List WEvent → Except String (List Cmd)
  | _, _, [] => Except.ok []
  | mp, count, e :: rest =>
    match e.change with
    | WChange.closeWin =>
      match e.container.app_id with
      | some aid =>
        match afterMarker aid with
        | some key =>
          match mlookup mp key with
          | some v =>
            match v.findIdx? (fun i => i == e.container.id) with
            | some idx =>
              if count - 1 = 0 then Except.ok []
              else swapGo (mset mp key (swapRemoveAt v idx)) (count - 1) rest
            | none => swapGo mp count rest
          | none => swapGo mp count rest
        | none => swapGo mp count rest
      | none => swapGo mp count rest
    | WChange.newWin =>
      let r := newWindowStep mp e.container
      if r.swapped then
        if count - 1 = 0 then Except.ok r.cmds
        else (swapGo r.mapping (count - 1) rest).map (fun cs => r.cmds ++ cs)
      else (swapGo mp count rest).map (fun cs => r.cmds ++ cs)
    | WChange.otherWin => swapGo mp count rest

/-- `Swapper::swap`: count the outstanding placeholders, then run the event
loop over the stream. -/
def Swapper.swap (mp : List (String × List Int)) (events : List WEvent) :
    Except String (List Cmd) :=
  swapGo mp (countOf mp) events

/-- Claim C2 evaluation: when the event stream ends, `Swapper::swap` returns
success (`Ok(())`) REGARDLESS of the outstanding count — in particular for a
mapping still holding one placeholder (second conjunct exhibits the non-zero
count).  The claim (and the spec's error taxonomy) demand a fatal error here;
the sibling wait functions in src/main.rs indeed fail with
`"Event stream ended"` on the same condition, but the swap loop just falls
out of its `while let` into `Ok(())`. -/
theorem swap_stream_end_returns_success :
    (∀ mp : List (String × List Int), Swapper.swap mp [] = Except.ok []) ∧
      countOf [("a", [1])] = 1 := by
  exact ⟨fun mp => rfl, rfl⟩

/-- Claim C10: whenever processing a `New` window event performs no swap —
floating window, non-`"normal"` window type, no derivable matcher key, or no
pending placeholder under the key — exactly one `floating enable` command
addressed to that window is issued and the mapping is left unchanged. -/
theorem unmatched_window_floating_enable (mp : List (String × List Int)) (w : WinInfo)
    (h : (newWindowStep mp w).swapped = false) :
    (newWindowStep mp w).cmds = [Cmd.floatingEnable w.id]
      ∧ (newWindowStep mp w).mapping = mp := by
  unfold newWindowStep at *
  cases hk : matcherKey w with
  | none => simp [hk]
  | some m =>
    cases hv : mlookup mp m with
    | none => simp [hk, hv]
    | some v =>
      cases hl : v.getLast? with
      | none => simp [hk, hv, hl]
      | some conId => simp [hk, hv, hl] at h

def demoWinC10 : WinInfo :=
  { id := 5, name := none, app_id := some "x", floating := some (),
    window_properties := none }

/-- Witness for claim C10: a floating window derives no matcher key, so the
step issues one `floating enable` for it and leaves the (empty) mapping
untouched. -/
theorem unmatched_window_floating_enable_witness :
    (newWindowStep [] demoWinC10).cmds = [Cmd.floatingEnable 5]
      ∧ (newWindowStep [] demoWinC10).mapping = [] :=
  unmatched_window_floating_enable [] demoWinC10 (by rfl)

def demoMapC3 : List (String × List Int) := [("a", [1, 2])]

def demoWinC3 : WinInfo :=
  { id := 99, name := none, app_id := some "a", floating := none,
    window_properties := none }

/-- Claim C3 counterexample: two placeholders were registered for key `"a"`
in creation order — container 1 first, then container 2 (`on_app` pushes at
the end).  A matching `New` window is swapped with container 2, the
LATEST-created placeholder (`Vec::pop` takes the end of the list), not with
the earliest-created container 1 as the claim demands. -/
theorem swap_takes_latest_counter :
    (newWindowStep demoMapC3 demoWinC3).cmds = [Cmd.swapWith 2 99, Cmd.kill 2]
      ∧ (newWindowStep demoMapC3 demoWinC3).cmds ≠ [Cmd.swapWith 1 99, Cmd.kill 1]
      ∧ (newWindowStep demoMapC3 demoWinC3).mapping = [("a", [1])] := by
  refine ⟨rfl, ?_, rfl⟩
  decide

theorem mlookup_mset_self (mp : List (String × List Int)) (k : String) (v : List Int)
    (h : (mlookup mp k).isSome) :
    mlookup (mset mp k v) k = some v := by
  induction mp with
  | nil => simp [mlookup] at h
  | cons p rest ih =>
    by_cases hp : p.1 == k
    · simp [mset, hp, mlookup, List.find?]
    · have h' : (mlookup rest k).isSome := by
        simpa [mlookup, List.find?, hp] using h
      simpa [mset, hp, mlookup, List.find?] using ih h'

theorem mlookup_append_new (mp : List (String × List Int)) (k : String) (v : List Int)
    (h : mlookup mp k = none) :
    mlookup (mp ++ [(k, v)]) k = some v := by
  induction mp with
  | nil => simp [mlookup, List.find?]
  | cons p rest ih =>
    by_cases hp : p.1 == k
    · simp [mlookup, List.find?, hp] at h
    · have h' : mlookup rest k = none := by
        simpa [mlookup, List.find?, hp] using h
      simpa [mlookup, List.find?, hp] using ih h'

/-- Claim C3 (amended): the per-identity placeholder list is used as a stack.
The replay builder appends each newly created placeholder id at the END of
the list under its key (creation order), and on a matching `New` window the
swapper pops the LAST id of the list — the most recently created pending
placeholder — and swaps against it, leaving the earlier ids pending. -/
theorem swap_takes_latest (mp : List (String × List Int)) :
    (∀ (k : String) (c : Int),
      mlookup (registerPlaceholder mp k c) k = some ((mlookup mp k).getD [] ++ [c])) ∧
    (∀ (w : WinInfo) (k : String) (v : List Int) (conId : Int),
      matcherKey w = some k → mlookup mp k = some v → v.getLast? = some conId →
      (newWindowStep mp w).cmds = [Cmd.swapWith conId w.id, Cmd.kill conId]
        ∧ (newWindowStep mp w).mapping = mset mp k v.dropLast) := by
  constructor
  · intro k c
    unfold registerPlaceholder
    cases hv : mlookup mp k with
    | some v =>
      have : (mlookup mp k).isSome := by simp [hv]
      simp [hv, mlookup_mset_self mp k (v ++ [c]) this]
    | none => simp [hv, mlookup_append_new mp k [c] hv]
  · intro w k v conId hk hv hl
    simp [newWindowStep, hk, hv, hl]

/-- Witness for the amended claim C3: registering container 3 under `"a"`
appends it after the existing ids, and the swap for a matching window takes
the last id (2) of the list `[1, 2]`. -/
theorem swap_takes_latest_witness :
    mlookup (registerPlaceholder demoMapC3 "a" 3) "a" = some [1, 2, 3]
      ∧ (newWindowStep demoMapC3 demoWinC3).cmds = [Cmd.swapWith 2 99, Cmd.kill 2]
      ∧ (newWindowStep demoMapC3 demoWinC3).mapping = mset demoMapC3 "a" [1] := by
  refine ⟨?_, ?_⟩
  · have h := (swap_takes_latest demoMapC3).1 "a" 3
    have h2 : (mlookup demoMapC3 "a").getD [] ++ [3] = [1, 2, 3] := by
      simp [demoMapC3, mlookup, List.find?]
    rw [h2] at h
    exact h
  · exact (swap_takes_latest demoMapC3).2 demoWinC3 "a" [1, 2] 2 rfl (by rfl) rfl

end Swaystart
